import Mathlib

/-!
Verification of the conversational query resolver of CureHelp-Plus
(`src/chatbot.py`) against its natural-language specification.

The Python module is shallowly embedded below.  Modelling conventions:

* Python strings are modelled as `List Char` (abbreviated `Str`); all string
  operations the code uses (`lower`, `strip`, `split`, substring tests,
  `replace`) are defined explicitly on `List Char`, restricted to their
  ASCII behaviour, which is what the reference data exercises.
* Pandas dataframes are modelled as lists of row structures holding the
  fields the code actually reads.  The normalized columns that
  `preprocess_datasets` adds (`Disease_clean`, `diseases_clean`,
  `question_clean`) are recomputed by the pure function `cleanName`, which
  is exactly the `str.lower().str.strip()` computation the preprocessing
  performs once.
* A dataframe that failed to load (`None` in Python) is an `Option` that is
  `none`.
* Floating point similarity scores are modelled with exact arithmetic:
  the cosine similarity itself is a real number (`cosineSim`), and the
  argmax over rows is computed over the rational squares of the scores
  (`cosSq`), which is order-equivalent because every score here is
  nonnegative and `Real.sqrt` is monotone; the bridge is proved in
  `cosineSim_eq_sqrt_cosSq` and the monotonicity lemmas below.
* The fixed regular expressions of the code are all finite alternations
  of literals (expanded into explicit string lists) except the disease
  extraction pattern `(?:symptoms|signs|causes|treatment|of|for)\s+([^?]+)`,
  which is modelled directly by `extract_disease` with Python's
  leftmost-match and backtracking semantics.  One regex is built from user
  data: `get_disease_description` passes the cleaned disease name to pandas
  `Series.str.contains`, whose default `regex=True` runs `re.search` with
  the name as the pattern; this is modelled by `pyStrContainsRegex`, a
  regular-expression matcher (Brzozowski derivatives over a parsed pattern)
  covering the core fragment of Python `re` — see its doc comment for the
  fragment and for how unsupported and invalid patterns are treated.
-/

/-- Python strings are modelled as lists of characters. -/
abbrev Str := List Char

/-- Coerces a Lean string literal to the `List Char` model. -/
def str (s : String) : Str := s.data

/-- Python `str.lower()`, ASCII case mapping applied characterwise. -/
def toLowerL (l : Str) : Str := l.map Char.toLower

/-- Python `str.upper()`, ASCII case mapping applied characterwise. -/
def toUpperL (l : Str) : Str := l.map Char.toUpper

/-- Python `str.strip()`: removes leading and trailing whitespace. -/
def stripL (l : Str) : Str :=
  ((l.dropWhile Char.isWhitespace).reverse.dropWhile Char.isWhitespace).reverse

/-- Substring test: `containsSub pat l` models Python `pat in l`. -/
def containsSub (pat : Str) : Str → Bool
  | [] => pat.isEmpty
  | c :: rest => pat.isPrefixOf (c :: rest) || containsSub pat rest

/-- Worker for `tokensBy`: `acc` holds the reversed current run of
`p`-characters. -/
def tokensByAux (p : Char → Bool) : Str → Str → List Str
  | [], acc => if acc = [] then [] else [acc.reverse]
  | c :: rest, acc =>
    if p c then tokensByAux p rest (c :: acc)
    else if acc = [] then tokensByAux p rest []
    else acc.reverse :: tokensByAux p rest []

/-- Maximal runs of characters satisfying `p`; with `p = not ∘ isWhitespace`
this is Python `str.split()` and with an alphabetic predicate it is
`re.findall(r'[a-zA-Z]+', s)`. -/
def tokensBy (p : Char → Bool) (l : Str) : List Str := tokensByAux p l []

/-- Python `len(s.split())`: the number of whitespace-separated words. -/
def wordCount (l : Str) : ℕ := (tokensBy (fun c => !c.isWhitespace) l).length

/-- Python `s.split(sep)` for a single-character separator: splits at every
occurrence, keeping empty pieces. -/
def splitOnChar (sep : Char) : Str → List Str
  | [] => [[]]
  | c :: rest =>
    match splitOnChar sep rest with
    | [] => if c = sep then [[], []] else [[c]]
    | p :: ps => if c = sep then [] :: p :: ps else (c :: p) :: ps

/-- The three intents `classify_input_type` can return. -/
inductive Intent where
  | question
  | symptoms
  | disease
deriving DecidableEq, Repr

/-- The eleven question regexes of `classify_input_type`, expanded into the
literal strings they can match (each regex is a plain alternation, and
`re.search` on such a pattern is a substring test). -/
def question_patterns : List Str :=
  [str "what are", str "what is",
   str "how to", str "how do", str "how can",
   str "why is", str "why are",
   str "when should", str "when do",
   str "where can", str "where do",
   str "who should", str "who can",
   str "can you", str "could you", str "would you",
   str "explain", str "tell me about"]

/-- Embedding of `classify_input_type` (src/chatbot.py lines 263-302). -/
def classify_input_type (user_input : Str) : Intent :=
  if user_input = [] then .question
  else
    let user_input_lower := stripL (toLowerL user_input)
    let is_question := question_patterns.any (fun p => containsSub p user_input_lower)
    let has_question_mark := user_input.contains '?'
    let has_commas := user_input.contains ','
    let is_short_phrase := decide (wordCount user_input ≤ 5) && !is_question
    if has_question_mark || is_question then .question
    else if has_commas && is_short_phrase then .symptoms
    else if !is_question && decide (wordCount user_input ≤ 3) then .disease
    else .question

/-- Lowercase-and-trim normalization used for all disease-name joins; this is
the `str.lower().str.strip()` computation `preprocess_datasets` stores in the
`*_clean` columns, recomputed here as a pure function of the raw name. -/
def cleanName (l : Str) : Str := stripL (toLowerL l)

/-- Normalization applied to each query symptom in
`predict_disease_from_symptoms`: `symptom.lower().strip().replace(' ', '_')`. -/
def normSymptom (l : Str) : Str :=
  (stripL (toLowerL l)).map (fun c => if c = ' ' then '_' else c)

/-- One row of the `Disease precaution.csv` table: the raw disease name and
the four (already NaN-cleaned) precaution cells in column order. -/
structure PrecRow where
  disease : Str
  cells : List Str
deriving DecidableEq, Repr

/-- One row of `DiseaseAndSymptoms.csv`: the raw disease name and the
`Symptom_*` cells in column order. -/
structure SymRow where
  disease : Str
  cells : List Str
deriving DecidableEq, Repr

/-- One row of `medquad.csv`: a question/answer pair. -/
structure FaqRow where
  question : Str
  answer : Str
deriving DecidableEq, Repr

/-- One row of the augmented symptom-presence matrix: the raw disease name
and the binary presence cell for each symptom column, in column order. -/
structure AugRow where
  disease : Str
  cells : List Bool
deriving DecidableEq, Repr

/-- The augmented matrix: the fixed symptom column vocabulary plus the rows.
`cols` models `symptom_columns` (every column except `diseases` and
`diseases_clean`). -/
structure AugTable where
  cols : List Str
  rows : List AugRow
deriving DecidableEq, Repr

/-- Embedding of `get_disease_symptoms` (src/chatbot.py lines 186-220):
augmented matrix first (column names with `_` replaced by spaces at the 1
cells of the first matching row), falling back to the symptom catalogue
(non-empty, non-`"nan"` stripped cells of the first matching row). -/
def get_disease_symptoms (disease_name : Str) (symptoms_df : Option (List SymRow))
    (augmented_df : Option AugTable) : List Str :=
  if disease_name = [] then []
  else
    let disease_clean := cleanName disease_name
    let aug_symptoms :=
      match augmented_df with
      | none => []
      | some t =>
        match t.rows.find? (fun r => cleanName r.disease = disease_clean) with
        | none => []
        | some r =>
          (t.cols.zip r.cells).filterMap (fun p =>
            if p.2 then some (p.1.map (fun c => if c = '_' then ' ' else c)) else none)
    if aug_symptoms ≠ [] then aug_symptoms
    else
      match symptoms_df with
      | none => []
      | some rows =>
        match rows.find? (fun r => cleanName r.disease = disease_clean) with
        | none => []
        | some r =>
          (r.cells.map stripL).filter (fun s => s ≠ [] ∧ s ≠ str "nan")

/-- Embedding of `get_disease_precautions` (src/chatbot.py lines 222-243). -/
def get_disease_precautions (disease_name : Str)
    (precautions_df : Option (List PrecRow)) : List Str :=
  match precautions_df with
  | none => []
  | some rows =>
    if disease_name = [] then []
    else
      let disease_clean := cleanName disease_name
      match rows.find? (fun r => cleanName r.disease = disease_clean) with
      | none => []
      | some r =>
        (r.cells.map stripL).filter (fun s => s ≠ [] ∧ s ≠ str "nan")

/-- The special characters of Python regular expressions. -/
def metaChars : List Char :=
  ['.', '^', '$', '*', '+', '?', '{', '}', '[', ']', '\\', '|', '(', ')']

/-- ASCII letters and digits (escapes of these are special in Python `re`,
escapes of anything else are literal). -/
def isAsciiAlphaNum (c : Char) : Bool :=
  (97 ≤ c.toNat && c.toNat ≤ 122) || (65 ≤ c.toNat && c.toNat ≤ 90) ||
  (48 ≤ c.toNat && c.toNat ≤ 57)

/-- Abstract syntax of the modelled regular-expression fragment: the empty
language, the empty string, a literal character, `.` (any character except
newline), a character class (possibly negated, as a list of inclusive
ranges), alternation, concatenation and Kleene star.  `a+` is modelled as
`a·a*` and `a?` as `ε|a`; greedy versus lazy quantifiers accept the same
language, which is all `re.search`-as-a-Boolean needs. -/
inductive Rx : Type where
  | zero
  | eps
  | lit (c : Char)
  | anyChar
  | cls (neg : Bool) (items : List (Char × Char))
  | alt (a b : Rx)
  | cat (a b : Rx)
  | star (a : Rx)
deriving DecidableEq, Repr

/-- Membership of a character in a (possibly negated) character class. -/
def clsMatch (neg : Bool) (items : List (Char × Char)) (c : Char) : Bool :=
  let inSet := items.any (fun p => decide (p.1 ≤ c) && decide (c ≤ p.2))
  if neg then !inSet else inSet

/-- Whether a regular expression accepts the empty string. -/
def rxNullable : Rx → Bool
  | .zero => false
  | .eps => true
  | .lit _ => false
  | .anyChar => false
  | .cls _ _ => false
  | .alt a b => rxNullable a || rxNullable b
  | .cat a b => rxNullable a && rxNullable b
  | .star _ => true

/-- Brzozowski derivative of a regular expression by a character. -/
def rxDeriv (c : Char) : Rx → Rx
  | .zero => .zero
  | .eps => .zero
  | .lit d => if c = d then .eps else .zero
  | .anyChar => if c = '\n' then .zero else .eps
  | .cls neg items => if clsMatch neg items c then .eps else .zero
  | .alt a b => .alt (rxDeriv c a) (rxDeriv c b)
  | .cat a b =>
    if rxNullable a then .alt (.cat (rxDeriv c a) b) (rxDeriv c b)
    else .cat (rxDeriv c a) b
  | .star a => .cat (rxDeriv c a) (.star a)

/-- Does some prefix of the string belong to the language of `r`? -/
def rxMatchHere (r : Rx) : Str → Bool
  | [] => rxNullable r
  | c :: rest => rxNullable r || rxMatchHere (rxDeriv c r) rest

/-- Does some substring of the string belong to the language of `r`?  This
is `bool(re.search(pattern, s))`. -/
def rxSearch (r : Rx) : Str → Bool
  | [] => rxNullable r
  | c :: rest => rxMatchHere r (c :: rest) || rxSearch r rest

/-- The concatenation of literal characters: the parse of a pattern that
contains no regex metacharacter. -/
def catOfChars : Str → Rx
  | [] => .eps
  | c :: rest => .cat (.lit c) (catOfChars rest)

/-- Items of a character class, up to the closing `']'`.  Supports plain
characters, `a-b` ranges (a trailing `'-'` is a literal, a reversed range is
an error as in Python), and escaped punctuation; alphanumeric escapes are
outside the modelled fragment. -/
def parseClassBody : Str → Option (List (Char × Char) × Str)
  | [] => none
  | ']' :: rest => some ([], rest)
  | '\\' :: c :: rest =>
    if isAsciiAlphaNum c then none
    else
      match parseClassBody rest with
      | none => none
      | some (items, r) => some ((c, c) :: items, r)
  | c :: '-' :: d :: rest =>
    if d = ']' then some ([(c, c), ('-', '-')], rest)
    else if d = '\\' then none
    else if c ≤ d then
      match parseClassBody rest with
      | none => none
      | some (items, r) => some ((c, d) :: items, r)
    else none
  | c :: rest =>
    match parseClassBody rest with
    | none => none
    | some (items, r) => some ((c, c) :: items, r)

/-- A character class after its opening `'['`: optional leading `'^'`
negation, then the class body.  Python's literal-`']'`-first quirk (`[]]`)
is outside the modelled fragment. -/
def parseClass : Str → Option (Rx × Str)
  | '^' :: ']' :: _ => none
  | '^' :: rest =>
    match parseClassBody rest with
    | none => none
    | some (items, r) => some (.cls true items, r)
  | ']' :: _ => none
  | s =>
    match parseClassBody s with
    | none => none
    | some (items, r) => some (.cls false items, r)

/-- Consumes the `'?'` of a lazy quantifier (`*?`, `+?`, `??`), which
accepts the same language as its greedy form. -/
def stripLazy : Str → Str
  | '?' :: rest => rest
  | s => s

mutual

/-- Alternation level of the pattern grammar: `seq ('|' alt)?`. -/
def parseAlt : ℕ → Str → Option (Rx × Str)
  | 0, _ => none
  | fuel + 1, s =>
    match parseSeq fuel s with
    | none => none
    | some (r, '|' :: rest) =>
      match parseAlt fuel rest with
      | none => none
      | some (r2, rest2) => some (.alt r r2, rest2)
    | some (r, rest) => some (r, rest)

/-- Concatenation level: a (possibly empty) run of quantified atoms, ended
by `')'`, `'|'` or the end of the pattern. -/
def parseSeq : ℕ → Str → Option (Rx × Str)
  | 0, _ => none
  | _ + 1, [] => some (.eps, [])
  | fuel + 1, c :: rest =>
    if c = ')' ∨ c = '|' then some (.eps, c :: rest)
    else
      match parseItem fuel (c :: rest) with
      | none => none
      | some (r1, rest1) =>
        match parseSeq fuel rest1 with
        | none => none
        | some (r2, rest2) => some (.cat r1 r2, rest2)

/-- An atom with an optional `*`, `+` or `?` quantifier (each possibly
lazy).  A second quantifier in a row reaches `parseAtom` on the quantifier
character and fails, like Python's "multiple repeat" error. -/
def parseItem : ℕ → Str → Option (Rx × Str)
  | 0, _ => none
  | fuel + 1, s =>
    match parseAtom fuel s with
    | none => none
    | some (r, '*' :: rest) => some (.star r, stripLazy rest)
    | some (r, '+' :: rest) => some (.cat r (.star r), stripLazy rest)
    | some (r, '?' :: rest) => some (.alt .eps r, stripLazy rest)
    | some (r, rest) => some (r, rest)

/-- An atom: a group `(...)` or `(?:...)` (equivalent for matchability since
alphanumeric escapes, hence backreferences, are outside the fragment), `.`,
an escaped punctuation character, a character class, or a literal
character.  Other uses of metacharacters are outside the fragment. -/
def parseAtom : ℕ → Str → Option (Rx × Str)
  | 0, _ => none
  | _ + 1, [] => none
  | fuel + 1, '(' :: '?' :: ':' :: rest =>
    match parseAlt fuel rest with
    | some (r, ')' :: rest2) => some (r, rest2)
    | _ => none
  | _ + 1, '(' :: '?' :: _ => none
  | fuel + 1, '(' :: rest =>
    match parseAlt fuel rest with
    | some (r, ')' :: rest2) => some (r, rest2)
    | _ => none
  | _ + 1, '.' :: rest => some (.anyChar, rest)
  | _ + 1, '\\' :: c :: rest =>
    if isAsciiAlphaNum c then none else some (.lit c, rest)
  | _ + 1, '[' :: rest => parseClass rest
  | _ + 1, c :: rest =>
    if c ∈ metaChars then none else some (.lit c, rest)

end

/-- Parses a Python regex pattern into the modelled fragment.  A pattern
with no metacharacter at all is the concatenation of its characters (the
fast path below, trivially what the grammar would produce); otherwise the
grammar above is used, with fuel amply larger than the nesting the pattern
could need.  `none` covers both patterns that are invalid in Python
(`re.error`) and valid patterns outside the fragment (anchors `^`/`$`,
`{m,n}` repetition, alphanumeric escapes such as `\d`, lone `{`/`}`/`]`
literals, lookarounds, possessive quantifiers). -/
def parseRegex (pat : Str) : Option Rx :=
  if pat.all (fun c => !(c ∈ metaChars)) then some (catOfChars pat)
  else
    match parseAlt (5 * (pat.length + 1)) pat with
    | some (r, []) => some r
    | _ => none

/-- Model of pandas `Series.str.contains(pat, na=False)` applied to one
cell, with the default `regex=True`: `bool(re.search(pat, s))`.  For a
pattern that does not parse into the modelled fragment the result is
`false`; in `get_disease_description` this makes every row fail the filter
so the lookup degrades to `none`, exactly the observable behaviour of the
code for an invalid pattern, where `str.contains` raises `re.error` and the
bare `except` returns `None`.  (For the valid Python patterns outside the
fragment, listed at `parseRegex`, the model may thus report `none` where the
code finds a match; no claim exercises those.) -/
def pyStrContainsRegex (pat s : Str) : Bool :=
  match parseRegex pat with
  | some r => rxSearch r s
  | none => false

/-- Embedding of `get_disease_description` (src/chatbot.py lines 245-261):
the answer of the first FAQ row whose normalized question is matched by
`str.contains(disease_clean, na=False)` — with pandas' default
`regex=True`, so the cleaned disease name is interpreted as a regular
expression (`re.search`), not as a literal substring. -/
def get_disease_description (disease_name : Str)
    (faq_df : Option (List FaqRow)) : Option Str :=
  match faq_df with
  | none => none
  | some rows =>
    if disease_name = [] then none
    else
      let disease_clean := cleanName disease_name
      match rows.find? (fun r => pyStrContainsRegex disease_clean (cleanName r.question)) with
      | none => none
      | some r => some r.answer

/-- Number of 1 entries of a binary vector (its squared Euclidean norm). -/
def bweight (v : List Bool) : ℕ := v.count true

/-- Dot product of two binary vectors. -/
def bdot (a b : List Bool) : ℕ := (List.zipWith (fun x y => x && y) a b).count true

/-- Square of the cosine similarity of two binary vectors, as an exact
rational; 0 when either vector is zero (sklearn's convention). -/
def cosSq (a b : List Bool) : ℚ :=
  if bweight a = 0 ∨ bweight b = 0 then 0
  else ((bdot a b : ℚ)) ^ 2 / ((bweight a : ℚ) * (bweight b : ℚ))

/-- Cosine similarity of two binary vectors: dot product over the product of
Euclidean norms, 0 when either vector is zero (sklearn's convention for
zero rows under `cosine_similarity`). -/
noncomputable def cosineSim (a b : List Bool) : ℝ :=
  if bweight a = 0 ∨ bweight b = 0 then 0
  else (bdot a b : ℝ) / (Real.sqrt (bweight a) * Real.sqrt (bweight b))

/-- Embedding of the query-vector construction loop of
`predict_disease_from_symptoms`: starting from the zero vector, each
normalized symptom found in the column vocabulary sets the entry at its
first column index to 1. -/
def buildQuery (cols : List Str) (symptoms_list : List Str) : List Bool :=
  symptoms_list.foldl
    (fun v s =>
      let c := normSymptom s
      if c ∈ cols then v.set (List.indexOf c cols) true else v)
    (List.replicate cols.length false)

/-- First element of `l` attaining the maximum of `f`, replacing the running
best only on a strict improvement; this is `np.argmax` (which returns the
first occurrence of the maximum) fetched back into the row list. -/
def argmaxBy {α : Type} (f : α → ℚ) : List α → Option α
  | [] => none
  | x :: xs =>
    match argmaxBy f xs with
    | none => some x
    | some b => if f b > f x then some b else some x

/-- Embedding of `predict_disease_from_symptoms` (src/chatbot.py lines
149-184).  The argmax is taken over the rational squared scores `cosSq`,
which orders rows exactly as the real cosine scores do (see
`cosineSim_eq_sqrt_cosSq`); the returned score is the real cosine
similarity, as the Python code returns `similarities_scores[best_idx]`. -/
noncomputable def predict_disease_from_symptoms (symptoms_list : List Str)
    (augmented_df : Option AugTable) : Option (Str × ℝ × List Bool) :=
  match augmented_df with
  | none => none
  | some t =>
    let query_vector := buildQuery t.cols symptoms_list
    match argmaxBy (fun r => cosSq query_vector r.cells) t.rows with
    | none => none
    | some r => some (r.disease, cosineSim query_vector r.cells, r.cells)

/-- The five FAQ regexes of `find_question_answer`, expanded into the literal
strings they can match (each is an alternation of literals with one optional
`"the "` group). -/
def faq_question_patterns : List Str :=
  [str "what are the symptoms of", str "what are symptoms of",
   str "what is the symptoms of", str "what is symptoms of",
   str "what are the signs of", str "what are signs of",
   str "what is the signs of", str "what is signs of",
   str "what are the causes of", str "what are causes of",
   str "what is the causes of", str "what is causes of",
   str "what are the reason of", str "what are reason of",
   str "what is the reason of", str "what is reason of",
   str "what are the treatment for", str "what are treatment for",
   str "what is the treatment for", str "what is treatment for",
   str "what are the remedy for", str "what are remedy for",
   str "what is the remedy for", str "what is remedy for",
   str "how to treat", str "how to handle", str "how to manage",
   str "how do treat", str "how do handle", str "how do manage",
   str "what is", str "what are"]

/-- ASCII alphabetic test, the character class `[a-zA-Z]`. -/
def isAsciiAlpha (c : Char) : Bool :=
  (97 ≤ c.toNat && c.toNat ≤ 122) || (65 ≤ c.toNat && c.toNat ≤ 90)

/-- Python `set(s.split())`: the distinct whitespace-separated words. -/
def wordSet (l : Str) : List Str := (tokensBy (fun c => !c.isWhitespace) l).dedup

/-- Score of one FAQ row in `find_question_answer` (src/chatbot.py lines
121-137): symptom-question boost, word-overlap ratio, and a cumulative 0.2
boost per long alphabetic token of the query appearing in the row question.
`question_clean` is the lowered-and-stripped user question, `faq_question`
the lowered row question. -/
def rowScore (question_clean faq_question : Str) : ℚ :=
  let is_symptom_question :=
    faq_question_patterns.any (fun p => containsSub p question_clean)
  let question_words := wordSet question_clean
  let faq_words := wordSet faq_question
  let disease_terms :=
    (tokensBy isAsciiAlpha question_clean).filter (fun t => 4 < t.length)
  (if is_symptom_question &&
      (containsSub (str "symptom") faq_question || containsSub (str "sign") faq_question)
   then 3/10 else 0)
  + (if question_words ≠ [] ∧ faq_words ≠ []
     then ((question_words.filter (fun w => w ∈ faq_words)).length : ℚ)
          / (question_words.length : ℚ)
     else 0)
  + (1/5) * ((disease_terms.filter (fun t => containsSub t faq_question)).length : ℚ)

/-- The row loop of `find_question_answer` (src/chatbot.py lines 114-145):
tracks the best match and best score, replaces them only on a strict score
improvement, skips rows with an empty lowered question, and exits early as
soon as the best score exceeds 0.9. -/
def faqLoop (question_clean : Str) :
    Option FaqRow → ℚ → List FaqRow → Option FaqRow × ℚ
  | best, best_score, [] => (best, best_score)
  | best, best_score, row :: rest =>
    if toLowerL row.question = [] then
      faqLoop question_clean best best_score rest
    else
      if rowScore question_clean (toLowerL row.question) > best_score then
        if rowScore question_clean (toLowerL row.question) > 9/10 then
          (some row, rowScore question_clean (toLowerL row.question))
        else
          faqLoop question_clean (some row)
            (rowScore question_clean (toLowerL row.question)) rest
      else faqLoop question_clean best best_score rest

/-- Embedding of `find_question_answer` (src/chatbot.py lines 86-147). -/
def find_question_answer (question : Str) (faq_df : Option (List FaqRow)) :
    Option FaqRow :=
  match faq_df with
  | none => none
  | some rows =>
    if rows = [] then none
    else
      if (faqLoop (stripL (toLowerL question)) none 0 rows).2 > 2/5 then
        (faqLoop (stripL (toLowerL question)) none 0 rows).1
      else none

/-- The list of keywords of the extraction regex
`(?:symptoms|signs|causes|treatment|of|for)\s+([^?]+)`, in alternation
order. -/
def extract_keywords : List Str :=
  [str "symptoms", str "signs", str "causes", str "treatment", str "of", str "for"]

/-- Attempt of the extraction regex at one position: a keyword must be a
prefix here, followed by at least one whitespace character (`\s+`) and then
at least one non-`'?'` character (`([^?]+)`, greedy).  Because whitespace
characters are themselves not `'?'`, Python's backtracking lets `[^?]+`
start at the last whitespace character when nothing else follows, which the
`k ≥ 2` fallback reproduces. -/
def tryMatchAt (l : Str) : Option Str :=
  match extract_keywords.find? (fun kw => kw.isPrefixOf l) with
  | none => none
  | some kw =>
    let rest := l.drop kw.length
    let k := (rest.takeWhile Char.isWhitespace).length
    let cap := (rest.drop k).takeWhile (fun c => c ≠ '?')
    if k = 0 then none
    else if cap ≠ [] then some cap
    else if 2 ≤ k then some ((rest.drop (k - 1)).takeWhile (fun c => c ≠ '?'))
    else none

/-- Leftmost match of the extraction regex (`re.search` scans positions left
to right; at most one keyword can be a prefix at any position, so
alternation order is immaterial here). -/
def extract_disease : Str → Option Str
  | [] => none
  | c :: rest =>
    match tryMatchAt (c :: rest) with
    | some cap => some cap
    | none => extract_disease rest

/-- The response dictionary assembled by `process_user_input`; `type` is
`none` only for the early return on empty input. -/
structure Response where
  type : Option Intent
  disease : Option Str
  confidence : ℝ
  symptoms : List Str
  precautions : List Str
  description : Option Str
  faq_question : Option Str
  faq_answer : Option Str

/-- The initialized response dictionary (src/chatbot.py lines 308-317). -/
noncomputable def initResponse : Response :=
  { type := none, disease := none, confidence := 0, symptoms := [],
    precautions := [], description := none, faq_question := none,
    faq_answer := none }

/-- The FAQ fallback of the question branch (src/chatbot.py lines 344-348). -/
noncomputable def question_fallback (user_input : Str)
    (faq_df : Option (List FaqRow)) (response : Response) : Response :=
  match find_question_answer user_input faq_df with
  | some row =>
    { response with faq_question := some row.question, faq_answer := some row.answer }
  | none => response

/-- Embedding of `process_user_input` (src/chatbot.py lines 304-377). -/
noncomputable def process_user_input (user_input : Str)
    (precautions_df : Option (List PrecRow)) (symptoms_df : Option (List SymRow))
    (faq_df : Option (List FaqRow)) (augmented_df : Option AugTable) : Response :=
  if user_input = [] then initResponse
  else
    let input_type := classify_input_type user_input
    let response := { initResponse with type := some input_type }
    if input_type = Intent.question then
      match extract_disease (toLowerL user_input) with
      | some grp =>
        let potential_disease := stripL grp
        if containsSub (str "symptom") (toLowerL user_input) ||
           containsSub (str "sign") (toLowerL user_input) then
          let symptoms := get_disease_symptoms potential_disease symptoms_df augmented_df
          if symptoms ≠ [] then
            { response with
              type := some Intent.disease,
              disease := some potential_disease,
              confidence := 19/20,
              symptoms := symptoms,
              precautions := get_disease_precautions potential_disease precautions_df,
              description := get_disease_description potential_disease faq_df }
          else question_fallback user_input faq_df response
        else question_fallback user_input faq_df response
      | none => question_fallback user_input faq_df response
    else if input_type = Intent.symptoms then
      let symptoms_list := (splitOnChar ',' user_input).map stripL
      match predict_disease_from_symptoms symptoms_list augmented_df with
      | some pred =>
        { response with
          disease := some pred.1,
          confidence := pred.2.1,
          symptoms := get_disease_symptoms pred.1 symptoms_df augmented_df,
          precautions := get_disease_precautions pred.1 precautions_df,
          description := get_disease_description pred.1 faq_df }
      | none => response
    else
      { response with
        disease := some user_input,
        confidence := 19/20,
        symptoms := get_disease_symptoms user_input symptoms_df augmented_df,
        precautions := get_disease_precautions user_input precautions_df,
        description := get_disease_description user_input faq_df }

/-- Value of `Char.ofNat` on a valid scalar value. -/
theorem toNat_ofNat_valid (n : ℕ) (h : n.isValidChar) : (Char.ofNat n).toNat = n := by
  simp only [Char.ofNat, dif_pos h]
  rfl

/-- Characters with equal scalar values are equal. -/
theorem char_toNat_inj {c d : Char} (h : c.toNat = d.toNat) : c = d := by
  have h2 := congrArg Char.ofNat h
  rwa [Char.ofNat_toNat, Char.ofNat_toNat] at h2

/-- Character equality in terms of scalar values. -/
theorem char_eq_iff_toNat {c d : Char} : c = d ↔ c.toNat = d.toNat :=
  ⟨fun h => by rw [h], char_toNat_inj⟩

/-- Whitespace test written on scalar values. -/
theorem isWhitespace_eq_toNat (d : Char) :
    d.isWhitespace = (decide (d.toNat = 32) || decide (d.toNat = 9) ||
      decide (d.toNat = 13) || decide (d.toNat = 10)) := by
  simp only [Char.isWhitespace]
  have e : ∀ (x : Char), (decide (d = x)) = decide (d.toNat = x.toNat) := fun x =>
    Bool.decide_congr char_eq_iff_toNat
  rw [e ' ', e '\t', e '\x0d', e '\n']
  rfl

/-- Uppercasing does not change whether a character is whitespace. -/
theorem toUpper_isWhitespace (c : Char) : (c.toUpper).isWhitespace = c.isWhitespace := by
  simp only [Char.toUpper]
  by_cases h : c.toNat ≥ 97 ∧ c.toNat ≤ 122
  · rw [if_pos h]
    have hv : (c.toNat - 32).isValidChar := by left; omega
    have h1 : (Char.ofNat (c.toNat - 32)).toNat = c.toNat - 32 := toNat_ofNat_valid _ hv
    rw [isWhitespace_eq_toNat, isWhitespace_eq_toNat, h1]
    have e1 : (decide (c.toNat - 32 = 32) || decide (c.toNat - 32 = 9) ||
        decide (c.toNat - 32 = 13) || decide (c.toNat - 32 = 10)) = false := by
      simp only [Bool.or_eq_false_iff, decide_eq_false_iff_not]; omega
    have e2 : (decide (c.toNat = 32) || decide (c.toNat = 9) ||
        decide (c.toNat = 13) || decide (c.toNat = 10)) = false := by
      simp only [Bool.or_eq_false_iff, decide_eq_false_iff_not]; omega
    rw [e1, e2]
  · rw [if_neg h]

/-- Uppercasing fixes equality with any non-letter character. -/
theorem toUpper_eq_iff {c d : Char} (hd1 : ¬ (d.toNat ≥ 65 ∧ d.toNat ≤ 90))
    (hd2 : ¬ (d.toNat ≥ 97 ∧ d.toNat ≤ 122)) : (c.toUpper = d) ↔ c = d := by
  simp only [Char.toUpper]
  by_cases h : c.toNat ≥ 97 ∧ c.toNat ≤ 122
  · rw [if_pos h]
    have hv : (c.toNat - 32).isValidChar := by left; omega
    have h1 : (Char.ofNat (c.toNat - 32)).toNat = c.toNat - 32 := toNat_ofNat_valid _ hv
    constructor
    · intro he
      exfalso
      rw [← he, h1] at hd1
      omega
    · intro he
      exfalso
      rw [he] at h
      exact hd2 h
  · rw [if_neg h]

/-- Lowercasing after uppercasing is plain lowercasing (ASCII). -/
theorem toLower_toUpper_eq (c : Char) : (c.toUpper).toLower = c.toLower := by
  simp only [Char.toUpper, Char.toLower]
  by_cases h : c.toNat ≥ 97 ∧ c.toNat ≤ 122
  · rw [if_pos h]
    have hv : (c.toNat - 32).isValidChar := by left; omega
    have h1 : (Char.ofNat (c.toNat - 32)).toNat = c.toNat - 32 := toNat_ofNat_valid _ hv
    rw [h1, if_pos (by omega : c.toNat - 32 ≥ 65 ∧ c.toNat - 32 ≤ 90),
        if_neg (by omega : ¬(c.toNat ≥ 65 ∧ c.toNat ≤ 90))]
    have h3 : c.toNat - 32 + 32 = c.toNat := by omega
    rw [h3, Char.ofNat_toNat]
  · rw [if_neg h]

/-- Lowercasing fixes whitespace characters. -/
theorem toLower_of_ws {c : Char} (h : c.isWhitespace = true) : c.toLower = c := by
  rw [isWhitespace_eq_toNat] at h
  simp only [Bool.or_eq_true, decide_eq_true_eq] at h
  simp only [Char.toLower]
  rw [if_neg (by omega)]

/-- Whitespace characters are neither `'?'` nor `','`. -/
theorem ws_ne_qmark_comma {c : Char} (h : c.isWhitespace = true) :
    c ≠ '?' ∧ c ≠ ',' := by
  rw [isWhitespace_eq_toNat] at h
  simp only [Bool.or_eq_true, decide_eq_true_eq] at h
  constructor <;> intro he <;> rw [he] at h <;> simp at h

/-- The token list of a string without any `p`-character is empty. -/
theorem tokensByAux_eq_nil {p : Char → Bool} :
    ∀ {l : Str}, (∀ c ∈ l, p c = false) → tokensByAux p l [] = []
  | [], _ => rfl
  | c :: rest, h => by
    unfold tokensByAux
    rw [if_neg (by simp [h c (List.mem_cons_self c rest)]), if_pos rfl]
    exact tokensByAux_eq_nil (fun d hd => h d (List.mem_cons_of_mem c hd))

/-- The token list of a string without any `p`-character is empty. -/
theorem tokensBy_eq_nil {p : Char → Bool} {l : Str}
    (h : ∀ c ∈ l, p c = false) : tokensBy p l = [] :=
  tokensByAux_eq_nil h

/-- Mapping a function that fixes every element of a list is the identity. -/
theorem map_id_of_fix {f : Char → Char} :
    ∀ {l : Str}, (∀ c ∈ l, f c = c) → l.map f = l
  | [], _ => rfl
  | c :: rest, h => by
    simp only [List.map_cons, h c (List.mem_cons_self c rest)]
    rw [map_id_of_fix (fun d hd => h d (List.mem_cons_of_mem c hd))]

/-- Dropping while `p` from a list all of whose elements satisfy `p` gives
the empty list. -/
theorem dropWhile_eq_nil_of_all {p : Char → Bool} :
    ∀ {l : Str}, (∀ c ∈ l, p c = true) → l.dropWhile p = []
  | [], _ => rfl
  | c :: rest, h => by
    rw [List.dropWhile_cons, if_pos (h c (List.mem_cons_self c rest))]
    exact dropWhile_eq_nil_of_all (fun d hd => h d (List.mem_cons_of_mem c hd))

/-- A list containing no occurrence of `a` reports `contains` false. -/
theorem contains_eq_false {a : Char} {l : Str} (h : ∀ c ∈ l, c ≠ a) :
    l.contains a = false := by
  rw [Bool.eq_false_iff]
  intro hc
  obtain ⟨x, hmem, hbeq⟩ := List.contains_iff_exists_mem_beq.mp hc
  exact h x hmem (by symm; simpa using hbeq)

/-- Claim C3 (counterexample): the whitespace-only input `" "` is classified
`disease`, not `question`, and `process_user_input ""` returns the
initialized response whose `type` field is unset (`none`), not `question`. -/
theorem C3_counterexample :
    classify_input_type (str " ") = Intent.disease ∧
    classify_input_type (str " ") ≠ Intent.question ∧
    (process_user_input (str "") none none none none).type = none := by
  refine ⟨by decide, by decide, ?_⟩
  rfl

/-- Claim C3 (amended): `classify_input_type` returns `question` on the
empty string, but a nonempty whitespace-only input is classified `disease`;
`process_user_input` on the empty input returns the initialized response
unchanged (its intent field is `none` and every optional field is
none/empty). -/
theorem C3_empty_blank_classification :
    classify_input_type [] = Intent.question ∧
    (∀ l : Str, l ≠ [] → (∀ c ∈ l, c.isWhitespace = true) →
      classify_input_type l = Intent.disease) ∧
    (∀ prec sym faq aug, process_user_input [] prec sym faq aug = initResponse) := by
  refine ⟨by decide, ?_, ?_⟩
  · intro l hne hws
    have hlow : toLowerL l = l :=
      map_id_of_fix (fun c hc => toLower_of_ws (hws c hc))
    have hstrip : stripL l = [] := by
      unfold stripL
      rw [dropWhile_eq_nil_of_all hws]
      rfl
    have h2 : l.contains '?' = false :=
      contains_eq_false (fun c hc => (ws_ne_qmark_comma (hws c hc)).1)
    have h3 : l.contains ',' = false :=
      contains_eq_false (fun c hc => (ws_ne_qmark_comma (hws c hc)).2)
    have h4 : wordCount l = 0 := by
      unfold wordCount
      rw [tokensBy_eq_nil (fun c hc => by simp [hws c hc])]
      rfl
    unfold classify_input_type
    rw [if_neg hne]
    simp only [hlow, hstrip, h2, h3, h4]
    norm_num
    decide
  · intro prec sym faq aug
    unfold process_user_input
    rw [if_pos rfl]

/-- Claim C4 (counterexample): `"a, b?"` contains a comma, has at most 5
words and matches none of the eleven question-indicating regex patterns,
yet it is classified `question` (because of the question mark), not
`symptoms`. -/
theorem C4_counterexample :
    (str "a, b?").contains ',' = true ∧
    wordCount (str "a, b?") ≤ 5 ∧
    (∀ p ∈ question_patterns, containsSub p (stripL (toLowerL (str "a, b?"))) = false) ∧
    classify_input_type (str "a, b?") = Intent.question ∧
    classify_input_type (str "a, b?") ≠ Intent.symptoms :=
  ⟨by decide, by decide, by decide, by decide, by decide⟩

/-- Claim C4 (amended): every input that contains a comma, has at most 5
whitespace-separated words, contains no question mark, and matches none of
the question-indicating regex patterns is classified `symptoms`. -/
theorem C4_comma_short_symptoms (l : Str)
    (hc : l.contains ',' = true)
    (hw : wordCount l ≤ 5)
    (hq : l.contains '?' = false)
    (hp : ∀ p ∈ question_patterns, containsSub p (stripL (toLowerL l)) = false) :
    classify_input_type l = Intent.symptoms := by
  have hne : l ≠ [] := by
    intro h
    rw [h] at hc
    exact absurd hc (by decide)
  have hisq : question_patterns.any
      (fun p => containsSub p (stripL (toLowerL l))) = false := by
    rw [List.any_eq_false]
    intro p hp2
    simp [hp p hp2]
  unfold classify_input_type
  rw [if_neg hne]
  simp only [hisq, hq, hc]
  simp [hw]

/-- Claim C4 (witness): the amended theorem applied to the concrete input
`"a, b"`. -/
theorem C4_witness :
    (str "a, b").contains ',' = true ∧ wordCount (str "a, b") ≤ 5 ∧
    (str "a, b").contains '?' = false ∧
    classify_input_type (str "a, b") = Intent.symptoms :=
  ⟨by decide, by decide, by decide,
   C4_comma_short_symptoms (str "a, b") (by decide) (by decide) (by decide) (by decide)⟩

/-- Matching a prefix against an alternation is the disjunction of the two
matches. -/
theorem rxMatchHere_alt (a b : Rx) :
    ∀ s, rxMatchHere (.alt a b) s = (rxMatchHere a s || rxMatchHere b s)
  | [] => rfl
  | c :: rest => by
    simp only [rxMatchHere, rxNullable, rxDeriv]
    rw [rxMatchHere_alt (rxDeriv c a) (rxDeriv c b) rest]
    cases rxNullable a <;> cases rxNullable b <;>
      simp [Bool.or_assoc, Bool.or_comm, Bool.or_left_comm]

/-- Nothing concatenated before the empty language ever matches. -/
theorem rxMatchHere_zero_cat (r : Rx) :
    ∀ s, rxMatchHere (.cat .zero r) s = false
  | [] => rfl
  | c :: rest => by
    simp only [rxMatchHere, rxNullable, rxDeriv]
    simpa using rxMatchHere_zero_cat r rest

/-- A leading empty-string factor does not change prefix matching. -/
theorem rxMatchHere_eps_cat (r : Rx) :
    ∀ s, rxMatchHere (.cat .eps r) s = rxMatchHere r s
  | [] => by simp [rxMatchHere, rxNullable]
  | c :: rest => by
    simp only [rxMatchHere, rxNullable, rxDeriv]
    rw [if_pos (by trivial)]
    rw [rxMatchHere_alt, rxMatchHere_zero_cat]
    simp

/-- Prefix matching of a pure-literal pattern is the prefix test. -/
theorem rxMatchHere_catOfChars :
    ∀ (pat s : Str), rxMatchHere (catOfChars pat) s = pat.isPrefixOf s
  | [], [] => by simp [catOfChars, rxMatchHere, rxNullable, List.isPrefixOf]
  | [], c :: rest => by simp [catOfChars, rxMatchHere, rxNullable, List.isPrefixOf]
  | p :: ps, [] => by simp [catOfChars, rxMatchHere, rxNullable, List.isPrefixOf]
  | p :: ps, c :: rest => by
    have hfe : (false = true) = False := by simp
    simp only [catOfChars, rxMatchHere, rxNullable, rxDeriv, Bool.and_self,
      Bool.false_and, Bool.false_or, List.isPrefixOf, hfe, if_false]
    by_cases hc : c = p
    · rw [if_pos hc, rxMatchHere_eps_cat, rxMatchHere_catOfChars ps rest]
      simp [hc]
    · rw [if_neg hc, rxMatchHere_zero_cat]
      have : (p == c) = false := by simpa using fun he => hc he.symm
      simp [this]

/-- Searching a pure-literal pattern is the substring test: the regex
semantics of `str.contains` coincide with a literal containment check
exactly when the pattern has no metacharacter. -/
theorem rxSearch_catOfChars (pat : Str) :
    ∀ (s : Str), rxSearch (catOfChars pat) s = containsSub pat s
  | [] => by
    cases pat <;>
      simp [rxSearch, catOfChars, rxNullable, containsSub, List.isEmpty]
  | c :: rest => by
    simp only [rxSearch, containsSub]
    rw [rxMatchHere_catOfChars, rxSearch_catOfChars pat rest]

/-- On a metacharacter-free pattern, the modelled `str.contains` is the
literal substring test. -/
theorem pyStrContainsRegex_literal {pat : Str} (h : ∀ c ∈ pat, c ∉ metaChars)
    (s : Str) : pyStrContainsRegex pat s = containsSub pat s := by
  have hp : parseRegex pat = some (catOfChars pat) := by
    unfold parseRegex
    rw [if_pos]
    rw [List.all_eq_true]
    intro c hc
    simpa using h c hc
  unfold pyStrContainsRegex
  rw [hp]
  exact rxSearch_catOfChars pat s

/-- Claim C5 (counterexample): the disease name `"."` is unknown to every
table — it matches no row of the augmented matrix, symptom catalogue or
precaution table, and is not even a literal substring of any FAQ question —
yet the aggregation does not yield `([], [], none)`: `str.contains`
interprets `"."` as a regular expression matching any character, so the
description lookup returns the first FAQ answer instead of `none`. -/
theorem C5_counterexample :
    (∀ r ∈ ([⟨str "flu", [true]⟩] : List AugRow),
      cleanName r.disease ≠ cleanName (str ".")) ∧
    (∀ r ∈ ([⟨str "flu", [str "fever"]⟩] : List SymRow),
      cleanName r.disease ≠ cleanName (str ".")) ∧
    (∀ r ∈ ([⟨str "flu", [str "rest"]⟩] : List PrecRow),
      cleanName r.disease ≠ cleanName (str ".")) ∧
    (∀ r ∈ ([⟨str "what is flu", str "a viral illness"⟩] : List FaqRow),
      containsSub (cleanName (str ".")) (cleanName r.question) = false) ∧
    get_disease_symptoms (str ".") (some [⟨str "flu", [str "fever"]⟩])
      (some ⟨[str "fever"], [⟨str "flu", [true]⟩]⟩) = [] ∧
    get_disease_precautions (str ".") (some [⟨str "flu", [str "rest"]⟩]) = [] ∧
    get_disease_description (str ".")
        (some [⟨str "what is flu", str "a viral illness"⟩]) =
      some (str "a viral illness") ∧
    get_disease_description (str ".")
        (some [⟨str "what is flu", str "a viral illness"⟩]) ≠ none :=
  ⟨by decide, by decide, by decide, by decide, by decide, by decide,
   by decide, by decide⟩

/-- Claim C5 (amended): the aggregation never raises, and for any disease
name whose cleaned form is free of regex metacharacters and which is
unknown to every table (no row of the augmented matrix, symptom catalogue
or precaution table has a matching normalized name, and no FAQ question
contains the cleaned name as a substring), the three lookups return
`([], [], none)`, for any combination of present or absent tables.  The
metacharacter restriction is what the counterexample forces: a name such as
`"."` is interpreted by `str.contains` as a regular expression and can
match a FAQ question it does not literally occur in. -/
theorem C5_unknown_disease_graceful (d : Str)
    (prec : Option (List PrecRow)) (sym : Option (List SymRow))
    (faq : Option (List FaqRow)) (aug : Option AugTable)
    (hlit : ∀ c ∈ cleanName d, c ∉ metaChars)
    (haug : ∀ r ∈ (aug.map AugTable.rows).getD [], cleanName r.disease ≠ cleanName d)
    (hsym : ∀ r ∈ sym.getD [], cleanName r.disease ≠ cleanName d)
    (hprec : ∀ r ∈ prec.getD [], cleanName r.disease ≠ cleanName d)
    (hfaq : ∀ r ∈ faq.getD [], containsSub (cleanName d) (cleanName r.question) = false) :
    get_disease_symptoms d sym aug = [] ∧
    get_disease_precautions d prec = [] ∧
    get_disease_description d faq = none := by
  refine ⟨?_, ?_, ?_⟩
  · by_cases hd : d = []
    · simp [get_disease_symptoms, hd]
    · have hs : ∀ (rows : List SymRow), sym = some rows →
          rows.find? (fun r => cleanName r.disease = cleanName d) = none := by
        intro rows hr
        rw [List.find?_eq_none]
        intro r hmem
        subst hr
        simp [hsym r (by simpa using hmem)]
      cases aug with
      | none =>
        cases sym with
        | none => simp [get_disease_symptoms, hd]
        | some rows => simp [get_disease_symptoms, hd, hs rows rfl]
      | some t =>
        have hf1 : t.rows.find? (fun r => cleanName r.disease = cleanName d) = none := by
          rw [List.find?_eq_none]
          intro r hmem
          simp [haug r (by simpa using hmem)]
        cases sym with
        | none => simp [get_disease_symptoms, hd, hf1]
        | some rows => simp [get_disease_symptoms, hd, hf1, hs rows rfl]
  · cases prec with
    | none => rfl
    | some rows =>
      by_cases hd : d = []
      · simp [get_disease_precautions, hd]
      · have hf : rows.find? (fun r => cleanName r.disease = cleanName d) = none := by
          rw [List.find?_eq_none]
          intro r hmem
          simp [hprec r (by simpa using hmem)]
        simp [get_disease_precautions, hd, hf]
  · cases faq with
    | none => rfl
    | some rows =>
      by_cases hd : d = []
      · simp [get_disease_description, hd]
      · have hf : rows.find?
            (fun r => pyStrContainsRegex (cleanName d) (cleanName r.question)) = none := by
          rw [List.find?_eq_none]
          intro r hmem
          rw [pyStrContainsRegex_literal hlit]
          simp [hfaq r (by simpa using hmem)]
        simp [get_disease_description, hd, hf]

/-- Claim C5 (witness): the graceful-degradation theorem applied to the
unknown, metacharacter-free disease name `"xyzabc123"` over small concrete
tables. -/
theorem C5_witness :
    get_disease_symptoms (str "xyzabc123")
        (some [⟨str "flu", [str "fever"]⟩])
        (some ⟨[str "fever"], [⟨str "flu", [true]⟩]⟩) = [] ∧
    get_disease_precautions (str "xyzabc123") (some [⟨str "flu", [str "rest"]⟩]) = [] ∧
    get_disease_description (str "xyzabc123")
        (some [⟨str "what is flu", str "a viral illness"⟩]) = none :=
  C5_unknown_disease_graceful (str "xyzabc123")
    (some [⟨str "flu", [str "rest"]⟩])
    (some [⟨str "flu", [str "fever"]⟩])
    (some [⟨str "what is flu", str "a viral illness"⟩])
    (some ⟨[str "fever"], [⟨str "flu", [true]⟩]⟩)
    (by decide) (by decide) (by decide) (by decide) (by decide)

/-- Membership of a non-letter character is unchanged by uppercasing. -/
theorem contains_toUpper {a : Char} (h1 : ¬ (a.toNat ≥ 65 ∧ a.toNat ≤ 90))
    (h2 : ¬ (a.toNat ≥ 97 ∧ a.toNat ≤ 122)) (l : Str) :
    (toUpperL l).contains a = l.contains a := by
  induction l with
  | nil => rfl
  | cons c rest ih =>
    simp only [toUpperL, List.map_cons, List.contains_cons] at *
    rw [ih]
    have he : (a == c.toUpper) = (a == c) := by
      rw [Bool.eq_iff_iff]
      simp only [beq_iff_eq]
      constructor
      · intro hx
        exact ((toUpper_eq_iff h1 h2).mp hx.symm).symm
      · intro hx
        exact ((toUpper_eq_iff h1 h2).mpr hx.symm).symm
    rw [he]

/-- The number of tokens is unchanged by mapping a character function that
does not change the splitting predicate. -/
theorem tokensByAux_length_map {f : Char → Char} {p q : Char → Bool}
    (hpq : ∀ c, p (f c) = q c) :
    ∀ (l : Str) (acc1 acc2 : Str), (acc1 = [] ↔ acc2 = []) →
      (tokensByAux p (l.map f) acc1).length = (tokensByAux q l acc2).length
  | [], acc1, acc2, h => by
    simp only [List.map_nil, tokensByAux]
    by_cases h2 : acc2 = []
    · rw [if_pos (h.mpr h2), if_pos h2]
    · rw [if_neg (fun hh => h2 (h.mp hh)), if_neg h2]
      rfl
  | c :: rest, acc1, acc2, h => by
    simp only [List.map_cons, tokensByAux, hpq c]
    by_cases hc : q c = true
    · rw [if_pos hc, if_pos hc]
      exact tokensByAux_length_map hpq rest _ _ (by simp)
    · rw [if_neg hc, if_neg hc]
      by_cases h2 : acc2 = []
      · rw [if_pos (h.mpr h2), if_pos h2]
        exact tokensByAux_length_map hpq rest [] [] Iff.rfl
      · rw [if_neg (fun hh => h2 (h.mp hh)), if_neg h2]
        simp only [List.length_cons]
        rw [tokensByAux_length_map hpq rest [] [] Iff.rfl]

/-- The word count is unchanged by uppercasing. -/
theorem wordCount_toUpper (l : Str) : wordCount (toUpperL l) = wordCount l := by
  unfold wordCount tokensBy toUpperL
  exact tokensByAux_length_map
    (fun c => by rw [toUpper_isWhitespace]) l [] [] Iff.rfl

/-- Lowercasing after uppercasing a whole string is plain lowercasing. -/
theorem toLowerL_toUpperL (l : Str) : toLowerL (toUpperL l) = toLowerL l := by
  unfold toLowerL toUpperL
  rw [List.map_map]
  exact List.map_congr_left (fun c _ => toLower_toUpper_eq c)

/-- Claim C7: classification is case-insensitive — classifying the
uppercased input gives the same intent as classifying the input itself
(`classify(s) == classify(s.upper())`). -/
theorem C7_classify_case_insensitive (l : Str) :
    classify_input_type (toUpperL l) = classify_input_type l := by
  by_cases hn : l = []
  · subst hn
    rfl
  · have hn2 : toUpperL l ≠ [] := by simpa [toUpperL] using hn
    have hq : (toUpperL l).contains '?' = l.contains '?' :=
      contains_toUpper (by decide) (by decide) l
    have hcm : (toUpperL l).contains ',' = l.contains ',' :=
      contains_toUpper (by decide) (by decide) l
    unfold classify_input_type
    rw [if_neg hn2, if_neg hn]
    simp only [toLowerL_toUpperL, hq, hcm, wordCount_toUpper]

/-- The dot product of binary vectors is at most the weight of the left one. -/
theorem bdot_le_left : ∀ (a b : List Bool), bdot a b ≤ bweight a
  | [], _ => Nat.zero_le _
  | _ :: _, [] => by simp [bdot, bweight]
  | x :: xs, y :: ys => by
    have ih := bdot_le_left xs ys
    simp only [bdot, bweight] at ih ⊢
    simp only [List.zipWith_cons_cons, List.count_cons]
    cases x <;> cases y <;> simp <;> omega

/-- The dot product of binary vectors is at most the weight of the right
one. -/
theorem bdot_le_right : ∀ (a b : List Bool), bdot a b ≤ bweight b
  | [], _ => by simp [bdot, bweight]
  | _ :: _, [] => by simp [bdot, bweight]
  | x :: xs, y :: ys => by
    have ih := bdot_le_right xs ys
    simp only [bdot, bweight] at ih ⊢
    simp only [List.zipWith_cons_cons, List.count_cons]
    cases x <;> cases y <;> simp <;> omega

/-- The squared cosine score is nonnegative. -/
theorem cosSq_nonneg (a b : List Bool) : 0 ≤ cosSq a b := by
  unfold cosSq
  split
  · exact le_refl _
  · positivity

/-- The squared cosine score is at most one (Cauchy-Schwarz for binary
vectors: the dot product is bounded by each weight). -/
theorem cosSq_le_one (a b : List Bool) : cosSq a b ≤ 1 := by
  unfold cosSq
  split
  · exact zero_le_one
  · rename_i h
    push_neg at h
    have ha : 0 < (bweight a : ℚ) := by exact_mod_cast Nat.pos_of_ne_zero h.1
    have hb : 0 < (bweight b : ℚ) := by exact_mod_cast Nat.pos_of_ne_zero h.2
    rw [div_le_one (by positivity)]
    have hn : bdot a b * bdot a b ≤ bweight a * bweight b :=
      Nat.mul_le_mul (bdot_le_left a b) (bdot_le_right a b)
    have := (Nat.cast_le (α := ℚ)).mpr hn
    push_cast at this
    nlinarith [this]

/-- The real cosine similarity is the square root of the rational squared
score; this is the bridge justifying taking the argmax over `cosSq`. -/
theorem cosineSim_eq_sqrt_cosSq (a b : List Bool) :
    cosineSim a b = Real.sqrt ((cosSq a b : ℚ) : ℝ) := by
  unfold cosineSim cosSq
  split
  · rw [Rat.cast_zero, Real.sqrt_zero]
  · rename_i h
    push_neg at h
    have ha : (0 : ℝ) < (bweight a : ℝ) := by exact_mod_cast Nat.pos_of_ne_zero h.1
    have hb : (0 : ℝ) < (bweight b : ℝ) := by exact_mod_cast Nat.pos_of_ne_zero h.2
    have hd : (0 : ℝ) ≤ (bdot a b : ℝ) := Nat.cast_nonneg _
    push_cast
    rw [Real.sqrt_div' ((bdot a b : ℝ) ^ 2) (by positivity)]
    rw [Real.sqrt_sq hd, Real.sqrt_mul (le_of_lt ha)]

/-- Cosine similarities compare as their rational squares do (weak form). -/
theorem cosineSim_le_of_cosSq_le {q a b : List Bool}
    (h : cosSq q a ≤ cosSq q b) : cosineSim q a ≤ cosineSim q b := by
  rw [cosineSim_eq_sqrt_cosSq, cosineSim_eq_sqrt_cosSq]
  exact Real.sqrt_le_sqrt (by exact_mod_cast h)

/-- Cosine similarities compare as their rational squares do (strict form). -/
theorem cosineSim_lt_of_cosSq_lt {q a b : List Bool}
    (h : cosSq q a < cosSq q b) : cosineSim q a < cosineSim q b := by
  rw [cosineSim_eq_sqrt_cosSq, cosineSim_eq_sqrt_cosSq]
  exact Real.sqrt_lt_sqrt (by exact_mod_cast cosSq_nonneg q a) (by exact_mod_cast h)

/-- The cosine similarity is nonnegative. -/
theorem cosineSim_nonneg (a b : List Bool) : 0 ≤ cosineSim a b := by
  unfold cosineSim
  split
  · exact le_refl _
  · positivity

/-- The cosine similarity of binary vectors is at most one. -/
theorem cosineSim_le_one (a b : List Bool) : cosineSim a b ≤ 1 := by
  rw [cosineSim_eq_sqrt_cosSq]
  have h1 : ((cosSq a b : ℚ) : ℝ) ≤ 1 := by exact_mod_cast cosSq_le_one a b
  calc Real.sqrt ((cosSq a b : ℚ) : ℝ) ≤ Real.sqrt 1 := Real.sqrt_le_sqrt h1
    _ = 1 := Real.sqrt_one

/-- The cosine similarity against a zero query vector is zero. -/
theorem cosineSim_zero_left {a : List Bool} (h : bweight a = 0) (b : List Bool) :
    cosineSim a b = 0 := by
  unfold cosineSim
  rw [if_pos (Or.inl h)]

/-- The squared cosine score against a zero query vector is zero. -/
theorem cosSq_zero_left {a : List Bool} (h : bweight a = 0) (b : List Bool) :
    cosSq a b = 0 := by
  unfold cosSq
  rw [if_pos (Or.inl h)]

/-- Specification of `argmaxBy`: on a nonempty list it returns the first
element attaining the maximum of `f` — every element strictly before the
returned one scores strictly less, and no element scores more. -/
theorem argmaxBy_spec {α : Type} (f : α → ℚ) :
    ∀ l : List α, l ≠ [] →
      ∃ l₁ r l₂, argmaxBy f l = some r ∧ l = l₁ ++ r :: l₂ ∧
        (∀ x ∈ l₁, f x < f r) ∧ (∀ x ∈ l, f x ≤ f r)
  | [], h => absurd rfl h
  | [x], _ => ⟨[], x, [], rfl, rfl, by simp, by simp⟩
  | x :: y :: ys, _ => by
    obtain ⟨l₁, r, l₂, h1, h2, h3, h4⟩ := argmaxBy_spec f (y :: ys) (by simp)
    by_cases hgt : f r > f x
    · refine ⟨x :: l₁, r, l₂, ?_, by rw [List.cons_append, h2], ?_, ?_⟩
      · unfold argmaxBy
        rw [h1]
        simp [hgt]
      · intro z hz
        rcases List.mem_cons.mp hz with hz1 | hz2
        · rw [hz1]; exact hgt
        · exact h3 z hz2
      · intro z hz
        rcases List.mem_cons.mp hz with hz1 | hz2
        · rw [hz1]; exact le_of_lt hgt
        · exact h4 z hz2
    · refine ⟨[], x, y :: ys, ?_, rfl, by simp, ?_⟩
      · unfold argmaxBy
        rw [h1]
        simp [hgt]
      · intro z hz
        rcases List.mem_cons.mp hz with hz1 | hz2
        · rw [hz1]
        · exact le_trans (h4 z hz2) (not_lt.mp hgt)

/-- On a nonempty list whose tail never strictly beats the head, `argmaxBy`
returns the head (ties keep the earlier element). -/
theorem argmaxBy_head {α : Type} (f : α → ℚ) (r : α) (rest : List α)
    (h : ∀ x ∈ rest, f x ≤ f r) : argmaxBy f (r :: rest) = some r := by
  obtain ⟨l₁, b, l₂, h1, h2, h3, _⟩ := argmaxBy_spec f (r :: rest) (by simp)
  cases l₁ with
  | nil =>
    simp only [List.nil_append] at h2
    rw [h1, (List.cons.injEq _ _ _ _).mp h2 |>.1]
  | cons a l₁x =>
    exfalso
    have ha : a = r ∧ rest = l₁x ++ b :: l₂ := by
      have := (List.cons.injEq _ _ _ _).mp (by simpa using h2)
      exact ⟨this.1.symm, this.2⟩
    have hb : b ∈ rest := by
      rw [ha.2]
      exact List.mem_append.mpr (Or.inr (List.mem_cons_self b l₂))
    have h5 : f a < f b := h3 a (List.mem_cons_self a l₁x)
    rw [ha.1] at h5
    exact absurd (lt_of_le_of_lt (h b hb) h5) (lt_irrefl _)

/-- Claim C1 (counterexample): on a nonempty matrix, a symptom list matching
no column (all-zero query vector) still yields a predicted disease — the
first table row, with score 0 — rather than no result. -/
theorem C1_counterexample :
    bweight (buildQuery [str "fever"] [str "xyz"]) = 0 ∧
    predict_disease_from_symptoms [str "xyz"]
        (some ⟨[str "fever"], [⟨str "flu", [true]⟩, ⟨str "cold", [true]⟩]⟩) =
      some (str "flu", 0, [true]) ∧
    predict_disease_from_symptoms [str "xyz"]
        (some ⟨[str "fever"], [⟨str "flu", [true]⟩, ⟨str "cold", [true]⟩]⟩) ≠
      none := by
  have ha : argmaxBy
      (fun r => cosSq (buildQuery [str "fever"] [str "xyz"]) r.cells)
      [(⟨str "flu", [true]⟩ : AugRow), ⟨str "cold", [true]⟩] =
      some ⟨str "flu", [true]⟩ := by decide
  have hc : cosineSim (buildQuery [str "fever"] [str "xyz"]) [true] = 0 :=
    cosineSim_zero_left (by decide) [true]
  have h2 : predict_disease_from_symptoms [str "xyz"]
      (some ⟨[str "fever"], [⟨str "flu", [true]⟩, ⟨str "cold", [true]⟩]⟩) =
      some (str "flu", 0, [true]) := by
    unfold predict_disease_from_symptoms
    simp only [ha, hc]
  exact ⟨by decide, h2, by rw [h2]; simp⟩

/-- Claim C1 (amended): when the augmented matrix is unavailable the matcher
returns no result; but when the matrix is nonempty and no input symptom
matched the column vocabulary (all-zero query vector), it does not return
"no result" — it deterministically returns the first table row, with
score 0. -/
theorem C1_unavailable_or_zero_query (symptoms_list : List Str) :
    predict_disease_from_symptoms symptoms_list none = none ∧
    (∀ (t : AugTable) (r : AugRow) (rest : List AugRow),
      t.rows = r :: rest →
      bweight (buildQuery t.cols symptoms_list) = 0 →
      predict_disease_from_symptoms symptoms_list (some t) =
        some (r.disease, 0, r.cells)) := by
  constructor
  · rfl
  · intro t r rest hrows hzero
    have hmax : argmaxBy
        (fun x => cosSq (buildQuery t.cols symptoms_list) x.cells) t.rows =
        some r := by
      rw [hrows]
      exact argmaxBy_head _ r rest (fun x _ => by
        rw [cosSq_zero_left hzero, cosSq_zero_left hzero])
    unfold predict_disease_from_symptoms
    simp only [hmax, cosineSim_zero_left hzero]

/-- Claim C1 (witness): the amended theorem applied to a concrete
two-row matrix and the unmatched symptom list `["xyz"]`. -/
theorem C1_witness :
    predict_disease_from_symptoms [str "xyz"] none = none ∧
    predict_disease_from_symptoms [str "xyz"]
        (some ⟨[str "fever"], [⟨str "cold", [true]⟩, ⟨str "flu", [true]⟩]⟩) =
      some (str "cold", 0, [true]) :=
  ⟨(C1_unavailable_or_zero_query [str "xyz"]).1,
   (C1_unavailable_or_zero_query [str "xyz"]).2
     ⟨[str "fever"], [⟨str "cold", [true]⟩, ⟨str "flu", [true]⟩]⟩
     ⟨str "cold", [true]⟩ [⟨str "flu", [true]⟩] rfl (by decide)⟩

/-- Claim C6: on every nonempty augmented matrix and every symptom list, the
matcher returns the row whose vector has the maximum cosine similarity with
the query vector (together with that score and vector), and when several
rows tie for the maximum it returns the first such row in table order. -/
theorem C6_matcher_returns_first_max (symptoms_list : List Str) (t : AugTable)
    (hne : t.rows ≠ []) :
    ∃ l₁ r l₂, t.rows = l₁ ++ r :: l₂ ∧
      predict_disease_from_symptoms symptoms_list (some t) =
        some (r.disease, cosineSim (buildQuery t.cols symptoms_list) r.cells,
          r.cells) ∧
      (∀ x ∈ t.rows, cosineSim (buildQuery t.cols symptoms_list) x.cells ≤
        cosineSim (buildQuery t.cols symptoms_list) r.cells) ∧
      (∀ x ∈ l₁, cosineSim (buildQuery t.cols symptoms_list) x.cells <
        cosineSim (buildQuery t.cols symptoms_list) r.cells) := by
  obtain ⟨l₁, r, l₂, h1, h2, h3, h4⟩ :=
    argmaxBy_spec (fun x => cosSq (buildQuery t.cols symptoms_list) x.cells)
      t.rows hne
  refine ⟨l₁, r, l₂, h2, ?_, ?_, ?_⟩
  · unfold predict_disease_from_symptoms
    simp only [h1]
  · intro x hx
    exact cosineSim_le_of_cosSq_le (h4 x hx)
  · intro x hx
    exact cosineSim_lt_of_cosSq_lt (h3 x hx)

/-- Claim C6 (witness): the maximum-cosine theorem applied to a concrete
two-row matrix where the second row matches the query better. -/
theorem C6_witness :
    ∃ l₁ r l₂,
      ([⟨str "flu", [false]⟩, ⟨str "cold", [true]⟩] : List AugRow) =
        l₁ ++ r :: l₂ ∧
      predict_disease_from_symptoms [str "fever"]
          (some ⟨[str "fever"], [⟨str "flu", [false]⟩, ⟨str "cold", [true]⟩]⟩) =
        some (r.disease,
          cosineSim (buildQuery [str "fever"] [str "fever"]) r.cells, r.cells) ∧
      (∀ x ∈ ([⟨str "flu", [false]⟩, ⟨str "cold", [true]⟩] : List AugRow),
        cosineSim (buildQuery [str "fever"] [str "fever"]) x.cells ≤
          cosineSim (buildQuery [str "fever"] [str "fever"]) r.cells) ∧
      (∀ x ∈ l₁,
        cosineSim (buildQuery [str "fever"] [str "fever"]) x.cells <
          cosineSim (buildQuery [str "fever"] [str "fever"]) r.cells) :=
  C6_matcher_returns_first_max [str "fever"]
    ⟨[str "fever"], [⟨str "flu", [false]⟩, ⟨str "cold", [true]⟩]⟩ (by decide)

/-- The FAQ fallback never changes the confidence field. -/
theorem question_fallback_confidence (u : Str) (faq : Option (List FaqRow))
    (resp : Response) :
    (question_fallback u faq resp).confidence = resp.confidence := by
  unfold question_fallback
  split <;> rfl

/-- Unfolding equation for the symptom matcher on a present matrix. -/
theorem predict_eq_match (syms : List Str) (t : AugTable) :
    predict_disease_from_symptoms syms (some t) =
      match argmaxBy (fun r => cosSq (buildQuery t.cols syms) r.cells) t.rows with
      | none => none
      | some r =>
        some (r.disease, cosineSim (buildQuery t.cols syms) r.cells, r.cells) :=
  rfl

/-- Any score returned by the symptom matcher is a cosine similarity of two
binary vectors. -/
theorem predict_score_shape {syms : List Str} {aug : Option AugTable}
    {p : Str × ℝ × List Bool}
    (h : predict_disease_from_symptoms syms aug = some p) :
    ∃ q v, p.2.1 = cosineSim q v := by
  cases aug with
  | none => exact absurd h (by simp [predict_disease_from_symptoms])
  | some t =>
    rw [predict_eq_match] at h
    cases hm : argmaxBy (fun r => cosSq (buildQuery t.cols syms) r.cells) t.rows with
    | none =>
      rw [hm] at h
      exact absurd h (by simp)
    | some r =>
      rw [hm] at h
      simp only [Option.some.injEq] at h
      exact ⟨buildQuery t.cols syms, r.cells, by rw [← h]⟩

/-- Claim C8: for every input and every combination of present or absent
tables, the assembled response's confidence lies in the interval `[0, 1]`,
being either 0 (initial value, question/FAQ path), the fixed 0.95 (disease
path, including the question-to-disease upgrade), or a cosine similarity of
binary vectors (symptoms path). -/
theorem C8_confidence_in_unit_interval (user_input : Str)
    (prec : Option (List PrecRow)) (sym : Option (List SymRow))
    (faq : Option (List FaqRow)) (aug : Option AugTable) :
    0 ≤ (process_user_input user_input prec sym faq aug).confidence ∧
    (process_user_input user_input prec sym faq aug).confidence ≤ 1 ∧
    ((process_user_input user_input prec sym faq aug).confidence = 0 ∨
     (process_user_input user_input prec sym faq aug).confidence = 19/20 ∨
     ∃ q v,
       (process_user_input user_input prec sym faq aug).confidence =
         cosineSim q v) := by
  have hshape : (process_user_input user_input prec sym faq aug).confidence = 0 ∨
      (process_user_input user_input prec sym faq aug).confidence = 19/20 ∨
      ∃ q v, (process_user_input user_input prec sym faq aug).confidence =
        cosineSim q v := by
    simp only [process_user_input, question_fallback]
    repeat' split
    all_goals
      first
        | (left; rfl)
        | (right; left; rfl)
        | (rename_i pred hpred
           right; right
           obtain ⟨q, v, hq⟩ := predict_score_shape hpred
           exact ⟨q, v, hq⟩)
  refine ⟨?_, ?_, hshape⟩
  · rcases hshape with h | h | ⟨q, v, h⟩
    · rw [h]
    · rw [h]
      norm_num
    · rw [h]
      exact cosineSim_nonneg q v
  · rcases hshape with h | h | ⟨q, v, h⟩
    · rw [h]
      norm_num
    · rw [h]
      norm_num
    · rw [h]
      exact cosineSim_le_one q v

/-- Effect of one step of the query-vector fold on a single entry. -/
theorem buildQuery_step_getElem (cols : List Str) (v : List Bool) (s : Str) (i : ℕ) :
    (if normSymptom s ∈ cols then
        v.set (List.indexOf (normSymptom s) cols) true else v)[i]? =
      (v[i]?).map (fun b => b || (decide (normSymptom s ∈ cols) &&
        decide (List.indexOf (normSymptom s) cols = i))) := by
  by_cases hm : normSymptom s ∈ cols
  · rw [if_pos hm, List.getElem?_set]
    by_cases hi : List.indexOf (normSymptom s) cols = i
    · rw [if_pos hi]
      by_cases hlen : List.indexOf (normSymptom s) cols < v.length
      · rw [if_pos hlen]
        rw [List.getElem?_eq_getElem (hi ▸ hlen)]
        simp [hm, hi]
      · rw [if_neg hlen]
        rw [List.getElem?_eq_none (by omega : v.length ≤ i)]
        rfl
    · rw [if_neg hi]
      simp [hi]
  · rw [if_neg hm]
    simp [hm]

/-- Entrywise description of the whole query-vector fold: an entry ends up
true exactly when it started true or some symptom of the list selects it. -/
theorem buildQuery_foldl_getElem (cols : List Str) :
    ∀ (syms : List Str) (v : List Bool) (i : ℕ),
      (syms.foldl (fun w s =>
        if normSymptom s ∈ cols then
          w.set (List.indexOf (normSymptom s) cols) true else w) v)[i]? =
        (v[i]?).map (fun b => b || syms.any (fun s =>
          decide (normSymptom s ∈ cols) &&
          decide (List.indexOf (normSymptom s) cols = i)))
  | [], v, i => by simp
  | s :: ss, v, i => by
    rw [List.foldl_cons, buildQuery_foldl_getElem cols ss _ i,
      buildQuery_step_getElem cols v s i, Option.map_map]
    congr 1
    funext b
    simp [List.any_cons, Bool.or_assoc]

/-- The query vector depends only on which symptoms occur in the list, not
on their order or multiplicity. -/
theorem buildQuery_ext (cols : List Str) {s1 s2 : List Str}
    (h : ∀ s, s ∈ s1 ↔ s ∈ s2) :
    buildQuery cols s1 = buildQuery cols s2 := by
  apply List.ext_getElem?
  intro n
  unfold buildQuery
  rw [buildQuery_foldl_getElem, buildQuery_foldl_getElem]
  congr 1
  funext b
  congr 1
  rw [Bool.eq_iff_iff, List.any_eq_true, List.any_eq_true]
  constructor
  · rintro ⟨x, hx, hpx⟩
    exact ⟨x, (h x).mp hx, hpx⟩
  · rintro ⟨x, hx, hpx⟩
    exact ⟨x, (h x).mpr hx, hpx⟩

/-- Claim C10: the symptom matcher is insensitive to order and multiplicity
of its input — two symptom lists with the same members (in particular any
permutation, or any duplication) produce the same (disease, score, vector)
result, because the query vector only records membership. -/
theorem C10_matcher_membership_invariant (aug : Option AugTable)
    (s1 s2 : List Str) (h : ∀ s, s ∈ s1 ↔ s ∈ s2) :
    predict_disease_from_symptoms s1 aug =
      predict_disease_from_symptoms s2 aug := by
  cases aug with
  | none => rfl
  | some t => rw [predict_eq_match, predict_eq_match, buildQuery_ext t.cols h]

/-- Claim C10 (witness): the invariance theorem applied to a permuted,
duplicated symptom list over a concrete matrix. -/
theorem C10_witness :
    predict_disease_from_symptoms [str "fever", str "cough"]
        (some ⟨[str "fever", str "cough"],
          [⟨str "flu", [true, true]⟩, ⟨str "cold", [false, true]⟩]⟩) =
      predict_disease_from_symptoms [str "cough", str "fever", str "fever"]
        (some ⟨[str "fever", str "cough"],
          [⟨str "flu", [true, true]⟩, ⟨str "cold", [false, true]⟩]⟩) :=
  C10_matcher_membership_invariant _ _ _
    (fun s => by simp [List.mem_cons]; tauto)

/-- Claim C2 (counterexample): for the input
`"what are the symptoms of diabetes?"` the shortcut regex captures
`"of diabetes"` — not `"diabetes"` — because the leftmost keyword match is
`"symptoms"` and everything after the following whitespace up to `'?'` is
captured.  Hence even over tables in which the disease `"diabetes"` has a
non-empty symptom list, the response does not escalate: its intent stays
`question` and no disease is resolved. -/
theorem C2_counterexample :
    Option.map stripL
        (extract_disease (toLowerL (str "what are the symptoms of diabetes?"))) =
      some (str "of diabetes") ∧
    str "of diabetes" ≠ str "diabetes" ∧
    get_disease_symptoms (str "diabetes") none
        (some ⟨[str "fever"], [⟨str "diabetes", [true]⟩]⟩) = [str "fever"] ∧
    (process_user_input (str "what are the symptoms of diabetes?") none none none
        (some ⟨[str "fever"], [⟨str "diabetes", [true]⟩]⟩)).type =
      some Intent.question ∧
    (process_user_input (str "what are the symptoms of diabetes?") none none none
        (some ⟨[str "fever"], [⟨str "diabetes", [true]⟩]⟩)).disease = none := by
  refine ⟨by decide, by decide, by decide, rfl, rfl⟩

/-- Claim C2 (amended): `"what are the symptoms of diabetes?"` is classified
`question` and the disease-symptom shortcut regex extracts the candidate
phrase `"of diabetes"` (the text after the first keyword match); if that
extracted phrase — not `"diabetes"` — has a non-empty symptom list in the
tables, the intent is upgraded to `disease` with confidence fixed at 0.95
and symptoms, precautions and description populated for it. -/
theorem C2_question_shortcut (prec : Option (List PrecRow))
    (sym : Option (List SymRow)) (faq : Option (List FaqRow))
    (aug : Option AugTable)
    (h : get_disease_symptoms (str "of diabetes") sym aug ≠ []) :
    classify_input_type (str "what are the symptoms of diabetes?") =
      Intent.question ∧
    Option.map stripL
        (extract_disease (toLowerL (str "what are the symptoms of diabetes?"))) =
      some (str "of diabetes") ∧
    process_user_input (str "what are the symptoms of diabetes?") prec sym faq aug =
      { type := some Intent.disease,
        disease := some (str "of diabetes"),
        confidence := 19/20,
        symptoms := get_disease_symptoms (str "of diabetes") sym aug,
        precautions := get_disease_precautions (str "of diabetes") prec,
        description := get_disease_description (str "of diabetes") faq,
        faq_question := none, faq_answer := none } := by
  refine ⟨by decide, by decide, ?_⟩
  unfold process_user_input
  rw [if_neg (by decide : ¬ (str "what are the symptoms of diabetes?" = []))]
  simp only [show classify_input_type (str "what are the symptoms of diabetes?") =
    Intent.question from by decide]
  simp only [show extract_disease
    (toLowerL (str "what are the symptoms of diabetes?")) =
    some (str "of diabetes") from by decide]
  simp only [show stripL (str "of diabetes") = str "of diabetes" from by decide]
  rw [if_pos (by decide :
    (containsSub (str "symptom")
        (toLowerL (str "what are the symptoms of diabetes?")) ||
      containsSub (str "sign")
        (toLowerL (str "what are the symptoms of diabetes?"))) = true)]
  rw [if_pos h, if_pos trivial]
  rfl

/-- Claim C2 (witness): the amended shortcut theorem applied to a concrete
matrix that (artificially) lists `"of diabetes"` as a disease with one
symptom. -/
theorem C2_witness :
    classify_input_type (str "what are the symptoms of diabetes?") =
      Intent.question ∧
    Option.map stripL
        (extract_disease (toLowerL (str "what are the symptoms of diabetes?"))) =
      some (str "of diabetes") ∧
    process_user_input (str "what are the symptoms of diabetes?") none none none
        (some ⟨[str "thirst"], [⟨str "of diabetes", [true]⟩]⟩) =
      { type := some Intent.disease,
        disease := some (str "of diabetes"),
        confidence := 19/20,
        symptoms := get_disease_symptoms (str "of diabetes") none
          (some ⟨[str "thirst"], [⟨str "of diabetes", [true]⟩]⟩),
        precautions := get_disease_precautions (str "of diabetes") none,
        description := get_disease_description (str "of diabetes") none,
        faq_question := none, faq_answer := none } :=
  C2_question_shortcut none none none
    (some ⟨[str "thirst"], [⟨str "of diabetes", [true]⟩]⟩) (by decide)

/-- Once the best match holds a score that no later (nonempty-question) row
strictly exceeds, the FAQ loop never replaces it. -/
theorem faqLoop_tail (qc : Str) (r : FaqRow) (s : ℚ) :
    ∀ (l : List FaqRow),
      (∀ x ∈ l, toLowerL x.question ≠ [] →
        rowScore qc (toLowerL x.question) ≤ s) →
      faqLoop qc (some r) s l = (some r, s)
  | [], _ => rfl
  | x :: xs, h => by
    unfold faqLoop
    by_cases hx : toLowerL x.question = []
    · rw [if_pos hx]
      exact faqLoop_tail qc r s xs (fun y hy => h y (List.mem_cons_of_mem x hy))
    · rw [if_neg hx,
        if_neg (not_lt.mpr (h x (List.mem_cons_self x xs) hx))]
      exact faqLoop_tail qc r s xs (fun y hy => h y (List.mem_cons_of_mem x hy))

/-- Walking the FAQ loop through a prefix of rows that all score strictly
below row `r` (and below the early-exit limit) reaches `r`, selects it, and
keeps it to the end. -/
theorem faqLoop_reaches (qc : Str) (r : FaqRow) (l₂ : List FaqRow)
    (hne : toLowerL r.question ≠ [])
    (hl₂ : ∀ x ∈ l₂, toLowerL x.question ≠ [] →
      rowScore qc (toLowerL x.question) ≤ rowScore qc (toLowerL r.question)) :
    ∀ (l₁ : List FaqRow) (best : Option FaqRow) (bs : ℚ),
      bs < rowScore qc (toLowerL r.question) →
      bs ≤ 9/10 →
      (∀ x ∈ l₁, toLowerL x.question ≠ [] →
        rowScore qc (toLowerL x.question) < rowScore qc (toLowerL r.question) ∧
        rowScore qc (toLowerL x.question) ≤ 9/10) →
      faqLoop qc best bs (l₁ ++ r :: l₂) =
        (some r, rowScore qc (toLowerL r.question))
  | [], best, bs, hbs, _, _ => by
    rw [List.nil_append]
    unfold faqLoop
    rw [if_neg hne, if_pos hbs]
    by_cases hbig : rowScore qc (toLowerL r.question) > 9/10
    · rw [if_pos hbig]
    · rw [if_neg hbig]
      exact faqLoop_tail qc r _ l₂ hl₂
  | x :: l₁x, best, bs, hbs, hbs9, hpre => by
    rw [List.cons_append]
    unfold faqLoop
    by_cases hx : toLowerL x.question = []
    · rw [if_pos hx]
      exact faqLoop_reaches qc r l₂ hne hl₂ l₁x best bs hbs hbs9
        (fun y hy => hpre y (List.mem_cons_of_mem x hy))
    · rw [if_neg hx]
      obtain ⟨hlt, h9⟩ := hpre x (List.mem_cons_self x l₁x) hx
      by_cases himp : rowScore qc (toLowerL x.question) > bs
      · rw [if_pos himp, if_neg (not_lt.mpr h9)]
        exact faqLoop_reaches qc r l₂ hne hl₂ l₁x (some x) _ hlt h9
          (fun y hy => hpre y (List.mem_cons_of_mem x hy))
      · rw [if_neg himp]
        exact faqLoop_reaches qc r l₂ hne hl₂ l₁x best bs hbs hbs9
          (fun y hy => hpre y (List.mem_cons_of_mem x hy))

/-- Claim C9 (amended): when the scan reaches the earliest row attaining the
highest score — that is, every strictly earlier (nonempty-question) row
scores strictly less AND at most 0.9, so that no earlier row triggers the
early exit — and that top score clears the 0.4 threshold, the retriever
returns that earliest top row; ties among later rows never displace it
because the best match is replaced only on a strict improvement.  (Without
the bound 0.9 on the earlier rows the statement is false: an earlier
sub-maximal row scoring above 0.9 is returned instead — see the
counterexample.) -/
theorem C9_faq_tie_earliest (question : Str) (l₁ l₂ : List FaqRow) (r : FaqRow)
    (hne : toLowerL r.question ≠ [])
    (hthr : 2/5 < rowScore (stripL (toLowerL question)) (toLowerL r.question))
    (hl₁ : ∀ x ∈ l₁, toLowerL x.question ≠ [] →
      rowScore (stripL (toLowerL question)) (toLowerL x.question) <
        rowScore (stripL (toLowerL question)) (toLowerL r.question) ∧
      rowScore (stripL (toLowerL question)) (toLowerL x.question) ≤ 9/10)
    (hl₂ : ∀ x ∈ l₂, toLowerL x.question ≠ [] →
      rowScore (stripL (toLowerL question)) (toLowerL x.question) ≤
        rowScore (stripL (toLowerL question)) (toLowerL r.question)) :
    find_question_answer question (some (l₁ ++ r :: l₂)) = some r := by
  have key := faqLoop_reaches (stripL (toLowerL question)) r l₂ hne hl₂ l₁ none 0
    (lt_trans (by norm_num) hthr) (by norm_num) hl₁
  show (if l₁ ++ r :: l₂ = [] then none
    else
      if (faqLoop (stripL (toLowerL question)) none 0 (l₁ ++ r :: l₂)).2 > 2/5 then
        (faqLoop (stripL (toLowerL question)) none 0 (l₁ ++ r :: l₂)).1
      else none) = some r
  rw [if_neg (by simp : ¬ (l₁ ++ r :: l₂ = [])), key]
  simp [hthr]

unseal Rat.add Rat.mul Rat.inv in
/-- Claim C9 (counterexample): rows 2 and 3 tie for the highest score (6/5),
but the retriever returns row 1 (score 1), because row 1 already exceeds the
early-exit limit 0.9 and the scan stops before reaching the tied maximum
rows.  So "ties for the highest score return the earliest such row" fails as
a statement about all inputs. -/
theorem C9_counterexample :
    find_question_answer (str "what is a b c d e f g abcdef")
        (some [⟨str "what is a b c d e symptom", str "a0"⟩,
               ⟨str "what is a b c d e f g symptom", str "a1"⟩,
               ⟨str "what is a b c d e f g symptom", str "a2"⟩]) =
      some ⟨str "what is a b c d e symptom", str "a0"⟩ ∧
    rowScore (stripL (toLowerL (str "what is a b c d e f g abcdef")))
        (toLowerL (str "what is a b c d e f g symptom")) = 6/5 ∧
    rowScore (stripL (toLowerL (str "what is a b c d e f g abcdef")))
        (toLowerL (str "what is a b c d e symptom")) = 1 ∧
    (⟨str "what is a b c d e symptom", str "a0"⟩ : FaqRow) ≠
      ⟨str "what is a b c d e f g symptom", str "a1"⟩ :=
  ⟨by decide, by decide, by decide, by decide⟩

unseal Rat.add Rat.mul Rat.inv in
/-- Claim C9 (witness): the amended earliest-top-row theorem applied to a
concrete one-row table whose single row scores 6/5 > 2/5. -/
theorem C9_witness :
    find_question_answer (str "pqrstu")
        (some ([] ++ (⟨str "pqrstu x", str "ans"⟩ : FaqRow) :: [])) =
      some ⟨str "pqrstu x", str "ans"⟩ :=
  C9_faq_tie_earliest (str "pqrstu") [] [] ⟨str "pqrstu x", str "ans"⟩
    (by decide) (by decide) (by decide) (by decide)

/-- Claim C3 (witness): the amended classification theorem applied to the
empty input, the concrete blank input `" "`, and absent tables. -/
theorem C3_witness :
    classify_input_type [] = Intent.question ∧
    classify_input_type (str " ") = Intent.disease ∧
    process_user_input [] none none none none = initResponse :=
  ⟨C3_empty_blank_classification.1,
   C3_empty_blank_classification.2.1 (str " ") (by decide) (by decide),
   C3_empty_blank_classification.2.2 none none none none⟩
